import Mathlib

/-!
Verification of the badger prefix registry and range-scan code (src/main.go).

Bytes are modelled as `Nat`, keys and values as `List Nat`. A badger read
transaction is modelled as the list of entries its iterator traverses, in
ascending key order (badger stores keys sorted by unsigned byte-wise
lexicographic order); each entry carries either the value its `ValueCopy`
read produces, or the error that read would report. Go panics and returned
errors are both modelled with `Except String`.
-/

namespace Badger

/-- A key or a value: a sequence of bytes. -/
abbrev Bytes := List Nat

/-- Byte-wise leading-subsequence test: `hasLeading p k` is true when `p` is
a leading subsequence of `k`. This is `bytes.HasPrefix(key, prefix)`, the
test performed by the badger iterator's `ValidForPrefix`. -/
def hasLeading : Bytes → Bytes → Bool
  | [], _ => true
  | _ :: _, [] => false
  | p :: ps, k :: ks => p == k && hasLeading ps ks

/-- Unsigned byte-wise lexicographic strict order on keys: the order badger
stores keys in and its iterator traverses them in. -/
def lexLt : Bytes → Bytes → Bool
  | [], [] => false
  | [], _ :: _ => true
  | _ :: _, [] => false
  | a :: as, b :: bs => if a < b then true else if b < a then false else lexLt as bs

/-- One store entry visible to a read transaction: the key, together with
the result reading its value gives (`Except.error` models a failing
`Item().ValueCopy`). -/
abbrev Entry := Bytes × Except String Bytes

/-- A read transaction's view of the store: the entries the iterator would
traverse, in ascending key order (see `sortedByKeys`). -/
abbrev Store := List Entry

/-- The store invariant: keys strictly ascending in lexicographic order
(every key is below every later key). -/
def sortedByKeys : Store → Bool
  | [] => true
  | e :: rest => rest.all (fun e2 => lexLt e.1 e2.1) && sortedByKeys rest

/-- `isOkB r` is true when the value read `r` succeeds. -/
def isOkB : Except String Bytes → Bool
  | .ok _ => true
  | .error _ => false

/-- The value of a successful read (dummy `[]` for a failed one). -/
def getOk : Except String Bytes → Bytes
  | .ok v => v
  | .error _ => []

/-- `Seek(prefix)` of the badger iterator: on a sorted store, positions the
cursor at the smallest key greater than or equal to the sought bytes, i.e.
drops the leading entries whose key is lexicographically below them. -/
def seek (store : Store) (p : Bytes) : Store :=
  store.dropWhile (fun e => lexLt e.1 p)

/-- The scan loop of `_enumerateKeysForPrefixWithTxn`: starting from the
cursor position, while `ValidForPrefix` holds, copy out the key, read the
value (aborting the whole scan with the error if the read fails, discarding
everything collected so far, as the Go code returns `nil, nil, err`), and
advance. Stops without error at the first non-matching or exhausted
position. -/
def scanLoop : Store → Bytes → Except String (List Bytes × List Bytes)
  | [], _ => .ok ([], [])
  | (k, v) :: rest, p =>
    if hasLeading p k then
      match v with
      | .error e => .error e
      | .ok val =>
        match scanLoop rest p with
        | .error e => .error e
        | .ok (ks, vs) => .ok (k :: ks, val :: vs)
    else .ok ([], [])

/-- `_enumerateKeysForPrefixWithTxn(txn, dbPrefix)`: seek to the first key
at or above `dbPfx`, then run the collection loop. Returns the list of key
copies and the list of value copies, or the first value-read error. -/
def enumerateKeysForPrefixWithTxn (txn : Store) (dbPfx : Bytes) :
    Except String (List Bytes × List Bytes) :=
  scanLoop (seek txn dbPfx) dbPfx

/-- Two independent invocations of the scan with the same transaction view
and the same sought bytes: the scan holds no cross-call cursor state, so
this pair models restarting the scan from the beginning. -/
def scanTwice (store : Store) (p : Bytes) :
    Except String (List Bytes × List Bytes) × Except String (List Bytes × List Bytes) :=
  (enumerateKeysForPrefixWithTxn store p, enumerateKeysForPrefixWithTxn store p)

/-- Successor byte sequence used by the boundary-precision property:
`succLast P` increments the last byte of `P`. For non-empty `P` this is the
"P+1" of the spec: a sequence above `P` that no longer has `P` as a leading
subsequence. -/
def succLast : Bytes → Bytes
  | [] => []
  | [a] => [a + 1]
  | a :: rest => a :: succLast rest

/-- Decimal digit test, as in `encoding/json` number parsing. -/
def isDigitCh (c : Char) : Bool := 48 ≤ c.toNat && c.toNat ≤ 57

/-- Numeric value of a digit string. -/
def digitsToNat (ds : List Char) : Nat :=
  ds.foldl (fun acc c => acc * 10 + (c.toNat - 48)) 0

/-- Parse one decimal number at the head of the input. -/
def parseNum (cs : List Char) : Option (Nat × List Char) :=
  let ds := cs.takeWhile isDigitCh
  if ds.isEmpty then none else some (digitsToNat ds, cs.dropWhile isDigitCh)

/-- Parse the tail of a JSON array of numbers: comma-separated further
elements, then the closing bracket. The fuel argument bounds the recursion
by the input length. -/
def parseRest : Nat → List Char → Option (List Nat × List Char)
  | 0, _ => none
  | _ + 1, ']' :: cs => some ([], cs)
  | fuel + 1, ',' :: cs =>
    match parseNum cs with
    | some (n, cs') =>
      if n ≤ 255 then
        match parseRest fuel cs' with
        | some (ns, rest) => some (n :: ns, rest)
        | none => none
      else none
    | none => none
  | _ + 1, _ => none

/-- `json.Unmarshal(value, &byteSlice)` for the JSON-array form every
`prefix_id` struct tag uses: `[n1,n2,...]` with each element a number in
0..255 (a `uint8` overflow is an unmarshal error). Any other input is an
unmarshal error (`none`); the base64 JSON-string form for byte slices is
not used by any declaration and is not modelled. -/
def jsonUnmarshalBytes (s : String) : Option Bytes :=
  match s.data with
  | '[' :: ']' :: rest => if rest.isEmpty then some [] else none
  | '[' :: cs =>
    match parseNum cs with
    | some (n, cs') =>
      if n ≤ 255 then
        match parseRest cs'.length cs' with
        | some (ns, rest) => if rest.isEmpty then some (n :: ns) else none
        | none => none
      else none
    | none => none
  | _ => none

/-- `getPrefixIdValue` (src/main.go): resolve one `prefix_id` struct tag.
`Except.error` models a Go `panic`. The Go code initialises the field to an
empty (non-nil) byte slice; unless the tag is the literal `""` or `"[]"`,
it unmarshals the tag into the field and panics on an unmarshal error; and
it panics with "prefix_id cannot be empty" when the tag is the literal
`"-"`. -/
def getPrefixIdValue (tagVal : String) : Except String Bytes :=
  if tagVal ≠ "-" then
    if tagVal ≠ "" ∧ tagVal ≠ "[]" then
      match jsonUnmarshalBytes tagVal with
      | some bs => Except.ok bs
      | none => Except.error "panic: cannot unmarshal prefix_id tag"
    else Except.ok []
  else Except.error "prefix_id cannot be empty"

/-- The `prefix_id` struct tags of the `DBPrefixes` struct (src/main.go),
one per field, in declaration order. -/
def dbPrefixesTags : List (String × String) := [
  ("PrefixBlockHashToBlock", "[0]"),
  ("PrefixHeightHashToNodeInfo", "[1]"),
  ("PrefixBitcoinHeightHashToNodeInfo", "[2]"),
  ("PrefixBestDeSoBlockHash", "[3]"),
  ("PrefixBestBitcoinHeaderHash", "[4]"),
  ("PrefixUtxoKeyToUtxoEntry", "[5]"),
  ("PrefixPubKeyUtxoKey", "[7]"),
  ("PrefixUtxoNumEntries", "[8]"),
  ("PrefixBlockHashToUtxoOperations", "[9]"),
  ("PrefixNanosPurchased", "[10]"),
  ("PrefixUSDCentsPerBitcoinExchangeRate", "[27]"),
  ("PrefixGlobalParams", "[40]"),
  ("PrefixBitcoinBurnTxIDs", "[11]"),
  ("PrefixPublicKeyTimestampToPrivateMessage", "[12]"),
  ("PrefixTransactionIndexTip", "[14]"),
  ("PrefixTransactionIDToMetadata", "[15]"),
  ("PrefixPublicKeyIndexToTransactionIDs", "[16]"),
  ("PrefixPublicKeyToNextIndex", "[42]"),
  ("PrefixPostHashToPostEntry", "[17]"),
  ("PrefixPosterPublicKeyPostHash", "[18]"),
  ("PrefixTstampNanosPostHash", "[19]"),
  ("PrefixCreatorBpsPostHash", "[20]"),
  ("PrefixMultipleBpsPostHash", "[21]"),
  ("PrefixCommentParentStakeIDToPostHash", "[22]"),
  ("PrefixPKIDToProfileEntry", "[23]"),
  ("PrefixProfileUsernameToPKID", "[25]"),
  ("PrefixCreatorDeSoLockedNanosCreatorPKID", "[32]"),
  ("PrefixStakeIDTypeAmountStakeIDIndex", "[26]"),
  ("PrefixFollowerPKIDToFollowedPKID", "[28]"),
  ("PrefixFollowedPKIDToFollowerPKID", "[29]"),
  ("PrefixLikerPubKeyToLikedPostHash", "[30]"),
  ("PrefixLikedPostHashToLikerPubKey", "[31]"),
  ("PrefixHODLerPKIDCreatorPKIDToBalanceEntry", "[33]"),
  ("PrefixCreatorPKIDHODLerPKIDToBalanceEntry", "[34]"),
  ("PrefixPosterPublicKeyTimestampPostHash", "[35]"),
  ("PrefixPublicKeyToPKID", "[36]"),
  ("PrefixPKIDToPublicKey", "[37]"),
  ("PrefixMempoolTxnHashToMsgDeSoTxn", "[38]"),
  ("PrefixReposterPubKeyRepostedPostHashToRepostPostHash", "[39]"),
  ("PrefixDiamondReceiverPKIDDiamondSenderPKIDPostHash", "[41]"),
  ("PrefixDiamondSenderPKIDDiamondReceiverPKIDPostHash", "[43]"),
  ("PrefixForbiddenBlockSignaturePubKeys", "[44]"),
  ("PrefixRepostedPostHashReposterPubKey", "[45]"),
  ("PrefixRepostedPostHashReposterPubKeyRepostPostHash", "[46]"),
  ("PrefixDiamondedPostHashDiamonderPKIDDiamondLevel", "[47]"),
  ("PrefixPostHashSerialNumberToNFTEntry", "[48]"),
  ("PrefixPKIDIsForSaleBidAmountNanosPostHashSerialNumberToNFTEntry", "[49]"),
  ("PrefixPostHashSerialNumberBidNanosBidderPKID", "[50]"),
  ("PrefixBidderPKIDPostHashSerialNumberToBidNanos", "[51]"),
  ("PrefixPublicKeyToDeSoBalanceNanos", "[52]"),
  ("PrefixPublicKeyBlockHashToBlockReward", "[53]"),
  ("PrefixPostHashSerialNumberToAcceptedBidEntries", "[54]"),
  ("PrefixHODLerPKIDCreatorPKIDToDAOCoinBalanceEntry", "[55]"),
  ("PrefixCreatorPKIDHODLerPKIDToDAOCoinBalanceEntry", "[56]"),
  ("PrefixMessagingGroupEntriesByOwnerPubKeyAndGroupKeyName", "[57]"),
  ("PrefixMessagingGroupMetadataByMemberPubKeyAndGroupMessagingPubKey", "[58]"),
  ("PrefixAuthorizeDerivedKey", "[59]"),
  ("PrefixDAOCoinLimitOrder", "[60]"),
  ("PrefixDAOCoinLimitOrderByTransactorPKID", "[61]"),
  ("PrefixDAOCoinLimitOrderByOrderID", "[62]"),
  ("PrefixUserAssociationByID", "[63]"),
  ("PrefixUserAssociationByTransactor", "[64]"),
  ("PrefixUserAssociationByTargetUser", "[65]"),
  ("PrefixUserAssociationByUsers", "[66]"),
  ("PrefixPostAssociationByID", "[67]"),
  ("PrefixPostAssociationByTransactor", "[68]"),
  ("PrefixPostAssociationByPost", "[69]"),
  ("PrefixPostAssociationByType", "[70]"),
  ("PrefixAccessGroupEntriesByAccessGroupId", "[71]"),
  ("PrefixAccessGroupMembershipIndex", "[72]"),
  ("PrefixAccessGroupMemberEnumerationIndex", "[73]"),
  ("PrefixGroupChatMessagesIndex", "[74]"),
  ("PrefixDmMessagesIndex", "[75]"),
  ("PrefixDmThreadIndex", "[76]"),
  ("PrefixNoncePKIDIndex", "[77]"),
  ("PrefixTxnHashToTxn", "[78]"),
  ("PrefixTxnHashToUtxoOps", "[79]")
]

/-- Resolve a list of field declarations in order, as `GetPrefixes` does by
iterating the struct fields; a panic anywhere aborts construction. -/
def buildFromTags : List (String × String) → Except String (List (String × Bytes))
  | [] => Except.ok []
  | (nm, tag) :: rest =>
    match getPrefixIdValue tag with
    | Except.error e => Except.error e
    | Except.ok bs =>
      match buildFromTags rest with
      | Except.error e => Except.error e
      | Except.ok tl => Except.ok ((nm, bs) :: tl)

/-- `GetPrefixes` (src/main.go): the registry built from the `DBPrefixes`
declarations, field name to resolved prefix bytes, in declaration order. -/
def GetPrefixes : Except String (List (String × Bytes)) :=
  buildFromTags dbPrefixesTags

/-- Two invocations of the registry build, modelling calling `GetPrefixes`
twice in the same process. -/
def buildTwice :
    Except String (List (String × Bytes)) × Except String (List (String × Bytes)) :=
  (GetPrefixes, GetPrefixes)

/-- The concrete table `GetPrefixes` evaluates to (proved below). -/
def registrySpec : List (String × Bytes) := [
  ("PrefixBlockHashToBlock", [0]),
  ("PrefixHeightHashToNodeInfo", [1]),
  ("PrefixBitcoinHeightHashToNodeInfo", [2]),
  ("PrefixBestDeSoBlockHash", [3]),
  ("PrefixBestBitcoinHeaderHash", [4]),
  ("PrefixUtxoKeyToUtxoEntry", [5]),
  ("PrefixPubKeyUtxoKey", [7]),
  ("PrefixUtxoNumEntries", [8]),
  ("PrefixBlockHashToUtxoOperations", [9]),
  ("PrefixNanosPurchased", [10]),
  ("PrefixUSDCentsPerBitcoinExchangeRate", [27]),
  ("PrefixGlobalParams", [40]),
  ("PrefixBitcoinBurnTxIDs", [11]),
  ("PrefixPublicKeyTimestampToPrivateMessage", [12]),
  ("PrefixTransactionIndexTip", [14]),
  ("PrefixTransactionIDToMetadata", [15]),
  ("PrefixPublicKeyIndexToTransactionIDs", [16]),
  ("PrefixPublicKeyToNextIndex", [42]),
  ("PrefixPostHashToPostEntry", [17]),
  ("PrefixPosterPublicKeyPostHash", [18]),
  ("PrefixTstampNanosPostHash", [19]),
  ("PrefixCreatorBpsPostHash", [20]),
  ("PrefixMultipleBpsPostHash", [21]),
  ("PrefixCommentParentStakeIDToPostHash", [22]),
  ("PrefixPKIDToProfileEntry", [23]),
  ("PrefixProfileUsernameToPKID", [25]),
  ("PrefixCreatorDeSoLockedNanosCreatorPKID", [32]),
  ("PrefixStakeIDTypeAmountStakeIDIndex", [26]),
  ("PrefixFollowerPKIDToFollowedPKID", [28]),
  ("PrefixFollowedPKIDToFollowerPKID", [29]),
  ("PrefixLikerPubKeyToLikedPostHash", [30]),
  ("PrefixLikedPostHashToLikerPubKey", [31]),
  ("PrefixHODLerPKIDCreatorPKIDToBalanceEntry", [33]),
  ("PrefixCreatorPKIDHODLerPKIDToBalanceEntry", [34]),
  ("PrefixPosterPublicKeyTimestampPostHash", [35]),
  ("PrefixPublicKeyToPKID", [36]),
  ("PrefixPKIDToPublicKey", [37]),
  ("PrefixMempoolTxnHashToMsgDeSoTxn", [38]),
  ("PrefixReposterPubKeyRepostedPostHashToRepostPostHash", [39]),
  ("PrefixDiamondReceiverPKIDDiamondSenderPKIDPostHash", [41]),
  ("PrefixDiamondSenderPKIDDiamondReceiverPKIDPostHash", [43]),
  ("PrefixForbiddenBlockSignaturePubKeys", [44]),
  ("PrefixRepostedPostHashReposterPubKey", [45]),
  ("PrefixRepostedPostHashReposterPubKeyRepostPostHash", [46]),
  ("PrefixDiamondedPostHashDiamonderPKIDDiamondLevel", [47]),
  ("PrefixPostHashSerialNumberToNFTEntry", [48]),
  ("PrefixPKIDIsForSaleBidAmountNanosPostHashSerialNumberToNFTEntry", [49]),
  ("PrefixPostHashSerialNumberBidNanosBidderPKID", [50]),
  ("PrefixBidderPKIDPostHashSerialNumberToBidNanos", [51]),
  ("PrefixPublicKeyToDeSoBalanceNanos", [52]),
  ("PrefixPublicKeyBlockHashToBlockReward", [53]),
  ("PrefixPostHashSerialNumberToAcceptedBidEntries", [54]),
  ("PrefixHODLerPKIDCreatorPKIDToDAOCoinBalanceEntry", [55]),
  ("PrefixCreatorPKIDHODLerPKIDToDAOCoinBalanceEntry", [56]),
  ("PrefixMessagingGroupEntriesByOwnerPubKeyAndGroupKeyName", [57]),
  ("PrefixMessagingGroupMetadataByMemberPubKeyAndGroupMessagingPubKey", [58]),
  ("PrefixAuthorizeDerivedKey", [59]),
  ("PrefixDAOCoinLimitOrder", [60]),
  ("PrefixDAOCoinLimitOrderByTransactorPKID", [61]),
  ("PrefixDAOCoinLimitOrderByOrderID", [62]),
  ("PrefixUserAssociationByID", [63]),
  ("PrefixUserAssociationByTransactor", [64]),
  ("PrefixUserAssociationByTargetUser", [65]),
  ("PrefixUserAssociationByUsers", [66]),
  ("PrefixPostAssociationByID", [67]),
  ("PrefixPostAssociationByTransactor", [68]),
  ("PrefixPostAssociationByPost", [69]),
  ("PrefixPostAssociationByType", [70]),
  ("PrefixAccessGroupEntriesByAccessGroupId", [71]),
  ("PrefixAccessGroupMembershipIndex", [72]),
  ("PrefixAccessGroupMemberEnumerationIndex", [73]),
  ("PrefixGroupChatMessagesIndex", [74]),
  ("PrefixDmMessagesIndex", [75]),
  ("PrefixDmThreadIndex", [76]),
  ("PrefixNoncePKIDIndex", [77]),
  ("PrefixTxnHashToTxn", [78]),
  ("PrefixTxnHashToUtxoOps", [79])
]

/-- Pairwise prefix-freedom check over resolved descriptor byte sequences:
no sequence is a leading subsequence of any other. -/
def pairwiseFreeB : List Bytes → Bool
  | [] => true
  | p :: rest => (rest.all fun q => !hasLeading p q && !hasLeading q p) && pairwiseFreeB rest

/-! ### Order lemmas -/

theorem lexLt_nil_right : ∀ k : Bytes, lexLt k [] = false
  | [] => rfl
  | _ :: _ => rfl

theorem lexLt_trans : ∀ a b c : Bytes,
    lexLt a b = true → lexLt b c = true → lexLt a c = true
  | _, [], _, hab, _ => by rw [lexLt_nil_right] at hab; exact absurd hab (by simp)
  | _ :: _, _ :: _, [], _, hbc => by rw [lexLt_nil_right] at hbc; exact absurd hbc (by simp)
  | [], _ :: _, [], _, hbc => by rw [lexLt_nil_right] at hbc; exact absurd hbc (by simp)
  | [], _ :: _, _ :: _, _, _ => rfl
  | x :: as, y :: bs, z :: cs, hab, hbc => by
    simp only [lexLt] at hab hbc ⊢
    rcases Nat.lt_trichotomy x y with h1 | h1 | h1
    · rcases Nat.lt_trichotomy y z with h2 | h2 | h2
      · rw [if_pos (by omega)]
      · rw [if_pos (by omega)]
      · rw [if_neg (by omega), if_pos h2] at hbc
        exact absurd hbc (by simp)
    · subst h1
      rcases Nat.lt_trichotomy x z with h2 | h2 | h2
      · rw [if_pos h2]
      · subst h2
        rw [if_neg (lt_irrefl x), if_neg (lt_irrefl x)] at hab hbc ⊢
        exact lexLt_trans as bs cs hab hbc
      · rw [if_neg (by omega), if_pos h2] at hbc
        exact absurd hbc (by simp)
    · rw [if_neg (by omega), if_pos h1] at hab
      exact absurd hab (by simp)

theorem hasLeading_le : ∀ p k : Bytes, hasLeading p k = true → lexLt k p = false
  | [], k, _ => lexLt_nil_right k
  | _ :: _, [], h => by simp [hasLeading] at h
  | x :: ps, y :: ks, h => by
    simp only [hasLeading, Bool.and_eq_true, beq_iff_eq] at h
    obtain ⟨rfl, h2⟩ := h
    simp only [lexLt]
    rw [if_neg (lt_irrefl _), if_neg (lt_irrefl _)]
    exact hasLeading_le ps ks h2

/-- Among keys at or above `p`, failing the leading-bytes test is upward
closed: once the sorted cursor reaches a key at or above `p` that no longer
starts with `p`, no later key starts with `p` either. -/
theorem notLeading_mono : ∀ p a b : Bytes,
    lexLt a p = false → hasLeading p a = false → lexLt a b = true →
    hasLeading p b = false
  | [], a, _, _, hpa, _ => by simp [hasLeading] at hpa
  | _ :: _, [], _, hap, _, _ => by simp [lexLt] at hap
  | _ :: _, _ :: _, [], _, _, hab => by rw [lexLt_nil_right] at hab; exact absurd hab (by simp)
  | x :: ps, y :: as, z :: bs, hap, hpa, hab => by
    simp only [lexLt] at hap hab
    simp only [hasLeading, Bool.and_eq_false_iff, beq_eq_false_iff_ne, ne_eq] at hpa ⊢
    rcases Nat.lt_trichotomy y x with hyx | hyx | hyx
    · rw [if_pos hyx] at hap
      exact absurd hap (by simp)
    · -- the first byte of a equals the first byte of p
      subst hyx
      rw [if_neg (lt_irrefl _), if_neg (lt_irrefl _)] at hap
      have hpa' : hasLeading ps as = false := by
        rcases hpa with hne | h
        · exact absurd rfl hne
        · exact h
      rcases Nat.lt_trichotomy y z with hyz | hyz | hyz
      · exact Or.inl (by omega)
      · subst hyz
        rw [if_neg (lt_irrefl _), if_neg (lt_irrefl _)] at hab
        exact Or.inr (notLeading_mono ps as bs hap hpa' hab)
      · rw [if_neg (by omega), if_pos hyz] at hab
        exact absurd hab (by simp)
    · -- the first byte of a is above the first byte of p
      rcases Nat.lt_trichotomy y z with hyz | hyz | hyz
      · exact Or.inl (by omega)
      · exact Or.inl (by omega)
      · rw [if_neg (by omega), if_pos hyz] at hab
        exact absurd hab (by simp)

theorem hasLeading_append : ∀ p s : Bytes, hasLeading p (p ++ s) = true
  | [], _ => rfl
  | x :: ps, s => by simp [hasLeading, hasLeading_append ps s]

theorem hasLeading_refl (p : Bytes) : hasLeading p p = true := by
  have h := hasLeading_append p []
  rwa [List.append_nil] at h

theorem lexLt_irrefl (p : Bytes) : lexLt p p = false :=
  hasLeading_le p p (hasLeading_refl p)

theorem lexLt_append_cons : ∀ (p : Bytes) (x : Nat) (s : Bytes),
    lexLt p (p ++ x :: s) = true
  | [], _, _ => rfl
  | a :: ps, x, s => by
    simp only [List.cons_append, lexLt]
    rw [if_neg (lt_irrefl a), if_neg (lt_irrefl a)]
    exact lexLt_append_cons ps x s

/-! ### Successor-sequence lemmas -/

theorem lexLt_succLast_append : ∀ p : Bytes, p ≠ [] →
    lexLt (p ++ [0]) (succLast p ++ [0]) = true
  | [a], _ => by
    simp only [succLast, List.cons_append, List.nil_append, lexLt]
    rw [if_pos (Nat.lt_succ_self a)]
  | a :: b :: rest, _ => by
    have ih := lexLt_succLast_append (b :: rest) (by simp)
    simp only [succLast, List.cons_append, lexLt]
    rw [if_neg (lt_irrefl a), if_neg (lt_irrefl a)]
    exact ih

theorem hasLeading_succLast : ∀ p : Bytes, p ≠ [] →
    hasLeading p (succLast p ++ [0]) = false
  | [a], _ => by
    simp only [succLast, List.cons_append, List.nil_append, hasLeading,
      Bool.and_eq_false_iff, beq_eq_false_iff_ne, ne_eq]
    exact Or.inl (by omega)
  | a :: b :: rest, _ => by
    have ih := hasLeading_succLast (b :: rest) (by simp)
    simp only [succLast, List.cons_append, hasLeading, Bool.and_eq_false_iff,
      beq_eq_false_iff_ne, ne_eq]
    exact Or.inr ih

/-! ### Sortedness lemmas -/

theorem sortedByKeys_cons {e : Entry} {rest : Store}
    (h : sortedByKeys (e :: rest) = true) :
    (∀ e2 ∈ rest, lexLt e.1 e2.1 = true) ∧ sortedByKeys rest = true := by
  simp only [sortedByKeys, Bool.and_eq_true, List.all_eq_true] at h
  exact h

theorem sortedByKeys_filter (q : Entry → Bool) :
    ∀ l : Store, sortedByKeys l = true → sortedByKeys (l.filter q) = true
  | [], _ => rfl
  | e :: rest, h => by
    obtain ⟨hall, hrest⟩ := sortedByKeys_cons h
    have ih := sortedByKeys_filter q rest hrest
    cases hq : q e with
    | true =>
      rw [List.filter_cons_of_pos hq]
      simp only [sortedByKeys, Bool.and_eq_true, List.all_eq_true]
      exact ⟨fun e2 he2 => hall e2 (List.mem_of_mem_filter he2), ih⟩
    | false =>
      rw [List.filter_cons_of_neg (by simp [hq])]
      exact ih

theorem sortedByKeys_pairwise : ∀ l : Store, sortedByKeys l = true →
    List.Pairwise (fun a b : Bytes => lexLt a b = true) (l.map Prod.fst)
  | [], _ => List.Pairwise.nil
  | e :: rest, h => by
    obtain ⟨hall, hrest⟩ := sortedByKeys_cons h
    simp only [List.map_cons, List.pairwise_cons]
    refine ⟨fun k hk => ?_, sortedByKeys_pairwise rest hrest⟩
    obtain ⟨e2, he2, rfl⟩ := List.mem_map.mp hk
    exact hall e2 he2

/-- In a sorted store whose head key is at or above `p`, every key is at or
above `p`. -/
theorem sorted_head_ge (p : Bytes) {k : Bytes} (v : Except String Bytes) {rest : Store}
    (hall : ∀ e2 ∈ rest, lexLt k e2.1 = true)
    (hlt : lexLt k p = false) :
    ∀ x ∈ ((k, v) :: rest : Store), lexLt x.1 p = false := by
  intro x hx
  rcases List.mem_cons.mp hx with rfl | hx'
  · exact hlt
  · cases h : lexLt x.1 p with
    | false => rfl
    | true =>
      have htr := lexLt_trans k x.1 p (hall x hx') h
      rw [htr] at hlt
      exact absurd hlt (by simp)

/-! ### Scan characterisation -/

/-- On a sorted suffix all of whose keys are at or above `p` and whose value
reads succeed, the scan loop collects exactly the entries whose key starts
with `p`. -/
theorem scanLoop_filter (p : Bytes) : ∀ l : Store,
    sortedByKeys l = true →
    (∀ e ∈ l, isOkB e.2 = true) →
    (∀ e ∈ l, lexLt e.1 p = false) →
    scanLoop l p =
      Except.ok (((l.filter fun e => hasLeading p e.1).map Prod.fst),
                 ((l.filter fun e => hasLeading p e.1).map fun e => getOk e.2))
  | [], _, _, _ => rfl
  | (k, v) :: rest, hsort, hok, hge => by
    obtain ⟨hall, hrest⟩ := sortedByKeys_cons hsort
    cases hk : hasLeading p k with
    | true =>
      have hvok : isOkB v = true := hok (k, v) (List.mem_cons_self _ _)
      obtain ⟨val, rfl⟩ : ∃ val, v = Except.ok val := by
        cases v with
        | ok val => exact ⟨val, rfl⟩
        | error e => simp [isOkB] at hvok
      have ih := scanLoop_filter p rest hrest
        (fun e he => hok e (List.mem_cons_of_mem _ he))
        (fun e he => hge e (List.mem_cons_of_mem _ he))
      have hfc : (((k, Except.ok val) :: rest).filter fun e => hasLeading p e.1)
          = (k, Except.ok val) :: (rest.filter fun e => hasLeading p e.1) :=
        List.filter_cons_of_pos (by simpa using hk)
      simp only [scanLoop, hk, if_true, ih, hfc, List.map_cons]
      rfl
    | false =>
      have hnone : ∀ e ∈ rest, hasLeading p e.1 = false := fun e he =>
        notLeading_mono p k e.1 (hge (k, v) (List.mem_cons_self _ _)) hk (hall e he)
      have hfil : (rest.filter fun e => hasLeading p e.1) = [] :=
        List.filter_eq_nil_iff.mpr (fun e he => by simp [hnone e he])
      have hscan : scanLoop ((k, v) :: rest) p = Except.ok ([], []) := by
        simp [scanLoop, hk]
      rw [hscan, List.filter_cons_of_neg (by simp [hk]), hfil]
      rfl

/-- The scan on a sorted store whose value reads succeed returns exactly the
entries whose key starts with `p`, in store order. -/
theorem scan_eq_filter (p : Bytes) : ∀ store : Store,
    sortedByKeys store = true →
    (∀ e ∈ store, isOkB e.2 = true) →
    enumerateKeysForPrefixWithTxn store p =
      Except.ok (((store.filter fun e => hasLeading p e.1).map Prod.fst),
                 ((store.filter fun e => hasLeading p e.1).map fun e => getOk e.2))
  | [], _, _ => rfl
  | (k, v) :: rest, hsort, hok => by
    obtain ⟨hall, hrest⟩ := sortedByKeys_cons hsort
    cases hlt : lexLt k p with
    | true =>
      have hnl : hasLeading p k = false := by
        cases h : hasLeading p k with
        | false => rfl
        | true =>
          rw [hasLeading_le p k h] at hlt
          exact absurd hlt (by simp)
      have ih := scan_eq_filter p rest hrest (fun e he => hok e (List.mem_cons_of_mem _ he))
      simp only [enumerateKeysForPrefixWithTxn, seek] at ih ⊢
      rw [List.dropWhile_cons, if_pos (by simp [hlt]), List.filter_cons_of_neg (by simp [hnl])]
      exact ih
    | false =>
      have hge := sorted_head_ge p v hall hlt
      simp only [enumerateKeysForPrefixWithTxn, seek]
      rw [List.dropWhile_cons, if_neg (by simp [hlt])]
      exact scanLoop_filter p ((k, v) :: rest) hsort hok hge

/-- If the loop reaches an entry whose key starts with `p` but whose value
read fails, the whole scan reports an error. -/
theorem scanLoop_error (p : Bytes) : ∀ l : Store,
    sortedByKeys l = true →
    (∀ x ∈ l, lexLt x.1 p = false) →
    ∀ e ∈ l, hasLeading p e.1 = true → isOkB e.2 = false →
    ∃ msg, scanLoop l p = Except.error msg
  | [], _, _, e, he, _, _ => absurd he (List.not_mem_nil e)
  | (k, v) :: rest, hsort, hge, e, he, hl, herr => by
    obtain ⟨hall, hrest⟩ := sortedByKeys_cons hsort
    cases hk : hasLeading p k with
    | false =>
      exfalso
      rcases List.mem_cons.mp he with rfl | he'
      · rw [hl] at hk
        exact absurd hk (by simp)
      · have hmono := notLeading_mono p k e.1 (hge (k, v) (List.mem_cons_self _ _)) hk
          (hall e he')
        rw [hl] at hmono
        exact absurd hmono (by simp)
    | true =>
      cases v with
      | error msg => exact ⟨msg, by simp [scanLoop, hk]⟩
      | ok val =>
        have he' : e ∈ rest := by
          rcases List.mem_cons.mp he with rfl | he'
          · simp [isOkB] at herr
          · exact he'
        obtain ⟨msg, hmsg⟩ := scanLoop_error p rest hrest
          (fun x hx => hge x (List.mem_cons_of_mem _ hx)) e he' hl herr
        exact ⟨msg, by simp [scanLoop, hk, hmsg]⟩

/-- If the store holds an entry whose key starts with `p` and whose value
read fails, the scan reports an error. -/
theorem scan_error (p : Bytes) : ∀ store : Store,
    sortedByKeys store = true →
    ∀ e ∈ store, hasLeading p e.1 = true → isOkB e.2 = false →
    ∃ msg, enumerateKeysForPrefixWithTxn store p = Except.error msg
  | [], _, e, he, _, _ => absurd he (List.not_mem_nil e)
  | (k, v) :: rest, hsort, e, he, hl, herr => by
    obtain ⟨hall, hrest⟩ := sortedByKeys_cons hsort
    cases hlt : lexLt k p with
    | true =>
      have he' : e ∈ rest := by
        rcases List.mem_cons.mp he with rfl | he'
        · rw [hasLeading_le p k hl] at hlt
          exact absurd hlt (by simp)
        · exact he'
      obtain ⟨msg, hmsg⟩ := scan_error p rest hrest e he' hl herr
      refine ⟨msg, ?_⟩
      simp only [enumerateKeysForPrefixWithTxn, seek] at hmsg ⊢
      rw [List.dropWhile_cons, if_pos (by simp [hlt])]
      exact hmsg
    | false =>
      have hge := sorted_head_ge p v hall hlt
      obtain ⟨msg, hmsg⟩ := scanLoop_error p ((k, v) :: rest) hsort hge e he hl herr
      refine ⟨msg, ?_⟩
      simp only [enumerateKeysForPrefixWithTxn, seek]
      rw [List.dropWhile_cons, if_neg (by simp [hlt])]
      exact hmsg

/-! ### Registry lemmas -/

theorem pairwiseFreeB_sound : ∀ l : List Bytes, pairwiseFreeB l = true →
    List.Pairwise (fun a b => hasLeading a b = false ∧ hasLeading b a = false) l
  | [], _ => List.Pairwise.nil
  | p :: rest, h => by
    simp only [pairwiseFreeB, Bool.and_eq_true, List.all_eq_true] at h
    obtain ⟨hall, hrest⟩ := h
    refine List.Pairwise.cons (fun q hq => ?_) (pairwiseFreeB_sound rest hrest)
    have hpq := hall q hq
    simp only [Bool.and_eq_true, Bool.not_eq_true'] at hpq
    exact hpq

/-- The registry build evaluates on the actual declarations to the concrete
table `registrySpec`, with no panic. -/
theorem GetPrefixes_eq : GetPrefixes = Except.ok registrySpec := by rfl

/-! ### The claims -/

/-- C1: for every store (sorted, with all value reads succeeding) and every
non-empty prefix P, the scan returns exactly those (key, value) pairs whose
key has P as its leading bytes — and no pair whose key lacks it — in
strictly ascending key order (stopping at the first exhausted or
non-matching cursor position). -/
theorem claimC1_scan_returns_exactly_matching_pairs
    (store : Store) (p : Bytes) (hp : p ≠ [])
    (hsort : sortedByKeys store = true)
    (hok : store.all (fun e => isOkB e.2) = true) :
    enumerateKeysForPrefixWithTxn store p =
      Except.ok (((store.filter fun e => hasLeading p e.1).map Prod.fst),
                 ((store.filter fun e => hasLeading p e.1).map fun e => getOk e.2)) ∧
    List.Pairwise (fun a b : Bytes => lexLt a b = true)
      ((store.filter fun e => hasLeading p e.1).map Prod.fst) := by
  have hok' := List.all_eq_true.mp hok
  exact ⟨scan_eq_filter p store hsort hok',
    sortedByKeys_pairwise _ (sortedByKeys_filter _ store hsort)⟩

/-- Witness for C1: the end-to-end example of spec §8 — two keys under
prefix [0], one under [1]; scanning [0] yields exactly the two, in
ascending order. -/
theorem claimC1_witness :
    enumerateKeysForPrefixWithTxn
        [([0, 1], Except.ok [10]), ([0, 2], Except.ok [11]), ([1, 1], Except.ok [12])] [0] =
      Except.ok ([[0, 1], [0, 2]], [[10], [11]]) := by
  have h := claimC1_scan_returns_exactly_matching_pairs
    [([0, 1], Except.ok [10]), ([0, 2], Except.ok [11]), ([1, 1], Except.ok [12])] [0]
    (by decide) (by decide) (by decide)
  exact h.1

/-- C2: in the registry built by `GetPrefixes` from the `DBPrefixes`
declarations, for every pair of distinct descriptors, neither resolved
prefix is a byte-wise leading subsequence of the other (and in particular
no two resolved prefixes are equal). -/
theorem claimC2_registry_pairwise_leading_free :
    GetPrefixes = Except.ok registrySpec ∧
    List.Pairwise
      (fun a b : String × Bytes =>
        hasLeading a.2 b.2 = false ∧ hasLeading b.2 a.2 = false ∧ a.2 ≠ b.2)
      registrySpec := by
  refine ⟨GetPrefixes_eq, ?_⟩
  have h := pairwiseFreeB_sound (registrySpec.map Prod.snd) (by decide)
  have h2 := List.pairwise_map.mp h
  refine h2.imp (fun hab => ⟨hab.1, hab.2, fun heq => ?_⟩)
  have h1 := hab.1
  rw [heq, hasLeading_refl] at h1
  exact absurd h1 (by simp)

/-- C3: if the store holds an entry under the scanned prefix whose value
read fails, the scan aborts with an error and returns no pairs at all (the
error outcome carries no key or value lists), and this outcome is distinct
from every success outcome, in particular from the empty result. -/
theorem claimC3_read_failure_aborts_scan
    (store : Store) (p : Bytes)
    (hsort : sortedByKeys store = true)
    (e : Entry) (he : e ∈ store)
    (hl : hasLeading p e.1 = true) (herr : isOkB e.2 = false) :
    (∃ msg, enumerateKeysForPrefixWithTxn store p = Except.error msg) ∧
    ∀ ks vs, enumerateKeysForPrefixWithTxn store p ≠ Except.ok (ks, vs) := by
  obtain ⟨msg, hmsg⟩ := scan_error p store hsort e he hl herr
  refine ⟨⟨msg, hmsg⟩, fun ks vs hcontra => ?_⟩
  rw [hmsg] at hcontra
  exact Except.noConfusion hcontra

/-- Witness for C3: a one-entry store whose single value read fails. -/
theorem claimC3_witness :
    (∃ msg, enumerateKeysForPrefixWithTxn [([1], Except.error "read failed")] [1] =
      Except.error msg) ∧
    ∀ ks vs, enumerateKeysForPrefixWithTxn [([1], Except.error "read failed")] [1] ≠
      Except.ok (ks, vs) :=
  claimC3_read_failure_aborts_scan _ _ (by decide) ([1], Except.error "read failed")
    (List.mem_cons_self _ _) (by decide) (by decide)

/-- C4 counterexample: the claim says registry construction fails fast on
the explicit empty/reserved sentinel declarations `""` and `"[]"`; in the
code neither fails — both resolve to an empty byte slice and construction
proceeds (the panic labelled "prefix_id cannot be empty" fires only on the
tag `"-"`). -/
theorem claimC4_counterexample :
    getPrefixIdValue "" = Except.ok [] ∧
    getPrefixIdValue "[]" = Except.ok [] ∧
    buildFromTags [("PrefixReserved", "")] = Except.ok [("PrefixReserved", [])] :=
  ⟨rfl, rfl, rfl⟩

/-- C4 amended: registry construction fails fast (process-fatal panic) for
every declaration that cannot be parsed as a byte-sequence array (other
than the three special literal tags) and for the `"-"` declaration, whose
panic message is "prefix_id cannot be empty"; the explicit empty/reserved
sentinel declarations `""` and `"[]"` do not fail — they resolve to an
empty (non-nil) byte sequence and construction proceeds. -/
theorem claimC4_amended_failfast :
    (∀ tagVal : String, tagVal ≠ "-" → tagVal ≠ "" → tagVal ≠ "[]" →
      jsonUnmarshalBytes tagVal = none →
      getPrefixIdValue tagVal = Except.error "panic: cannot unmarshal prefix_id tag") ∧
    getPrefixIdValue "-" = Except.error "prefix_id cannot be empty" ∧
    getPrefixIdValue "" = Except.ok [] ∧
    getPrefixIdValue "[]" = Except.ok [] := by
  refine ⟨fun tagVal h1 h2 h3 hj => ?_, rfl, rfl, rfl⟩
  unfold getPrefixIdValue
  rw [if_pos h1, if_pos ⟨h2, h3⟩, hj]

/-- Witness for C4 (amended): a malformed declaration panics. -/
theorem claimC4_witness :
    getPrefixIdValue "oops" = Except.error "panic: cannot unmarshal prefix_id tag" :=
  claimC4_amended_failfast.1 "oops" (by decide) (by decide) (by decide) rfl

/-- C5: boundary precision. For every non-empty P, a store holding exactly
the keys P, P||0x00 and (P+1)||0x00 (with P+1 the last byte of P
incremented, the next sequence after P outside the prefix family), scanned
with P, yields exactly the pairs for P and P||0x00 in that ascending order:
the cursor starts at the smallest key at or above P, so the key equal to P
itself is included, and the scan stops before (P+1)||0x00. -/
theorem claimC5_boundary_precision (P v1 v2 v3 : Bytes) (hP : P ≠ []) :
    enumerateKeysForPrefixWithTxn
        [(P, Except.ok v1), (P ++ [0], Except.ok v2), (succLast P ++ [0], Except.ok v3)] P =
      Except.ok ([P, P ++ [0]], [v1, v2]) := by
  have h1 : lexLt P P = false := lexLt_irrefl P
  have h2 : hasLeading P P = true := hasLeading_refl P
  have h3 : hasLeading P (P ++ [0]) = true := hasLeading_append P [0]
  have h4 : hasLeading P (succLast P ++ [0]) = false := hasLeading_succLast P hP
  simp [enumerateKeysForPrefixWithTxn, seek, scanLoop, List.dropWhile_cons, h1, h2, h3, h4]

/-- Witness for C5 at P = [5]: the store keys are [5], [5,0] and [6,0]. -/
theorem claimC5_witness :
    enumerateKeysForPrefixWithTxn
        [([5], Except.ok [1]), ([5] ++ [0], Except.ok [2]), (succLast [5] ++ [0], Except.ok [3])]
        [5] =
      Except.ok ([[5], [5] ++ [0]], [[1], [2]]) :=
  claimC5_boundary_precision [5] [1] [2] [3] (by decide)

/-- C6: scanning a prefix that is a leading subsequence of no key in the
store returns the empty pair of lists with no error — a success outcome. -/
theorem claimC6_no_match_empty_success (store : Store) (p : Bytes)
    (hnone : store.all (fun e => !hasLeading p e.1) = true) :
    enumerateKeysForPrefixWithTxn store p = Except.ok ([], []) := by
  have hnone' : ∀ e ∈ store, hasLeading p e.1 = false := fun e he => by
    have h := List.all_eq_true.mp hnone e he
    simpa using h
  unfold enumerateKeysForPrefixWithTxn
  cases hseek : seek store p with
  | nil => rfl
  | cons e t =>
    have hmem : e ∈ store :=
      List.Sublist.subset (List.dropWhile_sublist _) (hseek ▸ List.mem_cons_self e t)
    obtain ⟨k, v⟩ := e
    have hk := hnone' (k, v) hmem
    simp [scanLoop, hk]

/-- Witness for C6: a store with one key [2], scanned with prefix [3]. -/
theorem claimC6_witness :
    enumerateKeysForPrefixWithTxn [([2], Except.ok [9])] [3] = Except.ok ([], []) :=
  claimC6_no_match_empty_success _ _ (by decide)

/-- C7: registry construction is deterministic and order-stable — two
invocations of `GetPrefixes` yield the same table, and the table lists the
descriptors in declaration order. -/
theorem claimC7_registry_deterministic :
    buildTwice.1 = buildTwice.2 ∧
    GetPrefixes = Except.ok registrySpec ∧
    registrySpec.map Prod.fst = dbPrefixesTags.map Prod.fst :=
  ⟨rfl, GetPrefixes_eq, by rfl⟩

/-- C8: the scan is restartable and idempotent — two independent
invocations over the same unmodified store with the same prefix return
identical key lists and identical value lists, there being no cross-call
cursor state. -/
theorem claimC8_scan_restartable (store : Store) (p : Bytes) :
    (scanTwice store p).1 = (scanTwice store p).2 :=
  rfl

/-- C9: scanning with the empty (zero-length) prefix does not fail — every
key trivially starts with the empty prefix, so the scan returns every
(key, value) pair in the store, in ascending key order. -/
theorem claimC9_empty_bytes_scans_all (store : Store)
    (hsort : sortedByKeys store = true)
    (hok : store.all (fun e => isOkB e.2) = true) :
    enumerateKeysForPrefixWithTxn store [] =
      Except.ok (store.map Prod.fst, store.map fun e => getOk e.2) ∧
    List.Pairwise (fun a b : Bytes => lexLt a b = true) (store.map Prod.fst) := by
  have hok' := List.all_eq_true.mp hok
  have h := scan_eq_filter [] store hsort hok'
  have hfil : (store.filter fun e => hasLeading [] e.1) = store :=
    List.filter_eq_self.mpr (fun e _ => rfl)
  rw [hfil] at h
  exact ⟨h, sortedByKeys_pairwise store hsort⟩

/-- Witness for C9: a two-entry store scanned with the empty prefix. -/
theorem claimC9_witness :
    enumerateKeysForPrefixWithTxn [([1], Except.ok [7]), ([2], Except.ok [8])] [] =
      Except.ok ([[1], [2]], [[7], [8]]) := by
  have h := claimC9_empty_bytes_scans_all [([1], Except.ok [7]), ([2], Except.ok [8])]
    (by decide) (by decide)
  exact h.1

/-- C10: every descriptor in the registry built from the actual DBPrefixes
declarations resolves to a prefix of exactly one byte (hence non-empty),
and the construction completes without any panic. -/
theorem claimC10_all_single_byte :
    GetPrefixes = Except.ok registrySpec ∧
    ∀ d ∈ registrySpec, d.2.length = 1 :=
  ⟨GetPrefixes_eq, by decide⟩

end Badger
